import Mathlib

/-!
Verification model of the Twitch chat reader (`src/test-api.py`).

Text is modelled as `List Char` (a Python `str`), raw socket data as
`List Nat` (a Python `bytes`, one `Nat` per byte).  Each definition below
embeds one piece of the Python source, named after it where Lean allows.
-/

/-- Embedding of Python `bytes.decode('utf-8', errors='ignore')`: a total
UTF-8 decoder that silently skips malformed byte sequences (CPython skips
the maximal valid subpart of an ill-formed sequence and resumes at the
next byte; a truncated sequence at end of input is likewise dropped). -/
def decodeUtf8Ignore : List Nat → List Char
  | [] => []
  | b :: rest =>
    if b < 0x80 then
      Char.ofNat b :: decodeUtf8Ignore rest
    else if 0xC2 ≤ b ∧ b ≤ 0xDF then
      match rest with
      | [] => []
      | b1 :: rest1 =>
        if 0x80 ≤ b1 ∧ b1 ≤ 0xBF then
          Char.ofNat ((b - 0xC0) * 0x40 + (b1 - 0x80)) :: decodeUtf8Ignore rest1
        else decodeUtf8Ignore (b1 :: rest1)
    else if 0xE0 ≤ b ∧ b ≤ 0xEF then
      match rest with
      | [] => []
      | b1 :: rest1 =>
        if (if b = 0xE0 then 0xA0 else 0x80) ≤ b1 ∧
           b1 ≤ (if b = 0xED then 0x9F else 0xBF) then
          match rest1 with
          | [] => []
          | b2 :: rest2 =>
            if 0x80 ≤ b2 ∧ b2 ≤ 0xBF then
              Char.ofNat ((b - 0xE0) * 0x1000 + (b1 - 0x80) * 0x40 + (b2 - 0x80)) ::
                decodeUtf8Ignore rest2
            else decodeUtf8Ignore (b2 :: rest2)
        else decodeUtf8Ignore (b1 :: rest1)
    else if 0xF0 ≤ b ∧ b ≤ 0xF4 then
      match rest with
      | [] => []
      | b1 :: rest1 =>
        if (if b = 0xF0 then 0x90 else 0x80) ≤ b1 ∧
           b1 ≤ (if b = 0xF4 then 0x8F else 0xBF) then
          match rest1 with
          | [] => []
          | b2 :: rest2 =>
            if 0x80 ≤ b2 ∧ b2 ≤ 0xBF then
              match rest2 with
              | [] => []
              | b3 :: rest3 =>
                if 0x80 ≤ b3 ∧ b3 ≤ 0xBF then
                  Char.ofNat ((b - 0xF0) * 0x40000 + (b1 - 0x80) * 0x1000 +
                      (b2 - 0x80) * 0x40 + (b3 - 0x80)) :: decodeUtf8Ignore rest3
                else decodeUtf8Ignore (b3 :: rest3)
            else decodeUtf8Ignore (b2 :: rest2)
        else decodeUtf8Ignore (b1 :: rest1)
    else
      decodeUtf8Ignore rest

/-- Embedding of Python `s.split("\r\n")` on a `str` modelled as `List Char`:
split at each leftmost, non-overlapping occurrence of the two-character
terminator.  The result is always non-empty; the last element is the text
after the final terminator (the unterminated tail). -/
def splitCRLF : List Char → List (List Char)
  | [] => [[]]
  | [c] => [[c]]
  | c :: c2 :: rest =>
    if c = '\r' ∧ c2 = '\n' then
      [] :: splitCRLF rest
    else
      match splitCRLF (c2 :: rest) with
      | [] => [[c]]
      | h :: t => (c :: h) :: t

/-- One pass of the body of `TwitchChatReader.listen` over a decoded chunk:
`buffer += data; lines = buffer.split("\r\n"); buffer = lines.pop();`
then every non-empty complete line is handed to `handle_line`.  The state
is `(lines delivered so far, buffer)`. -/
def frameStep (st : List (List Char) × List Char) (data : List Char) :
    List (List Char) × List Char :=
  let parts := splitCRLF (st.2 ++ data)
  (st.1 ++ (parts.dropLast.filter fun l => !l.isEmpty), parts.getLastD [])

/-- The events `listen` reacts to on each loop iteration: `recv` returning
bytes (possibly decoding to the empty string, which the code treats as a
lost connection and answers with `reconnect()`), a `socket.timeout`
(`continue`), or any other exception (`reconnect()`). -/
inductive RecvEvent where
  | data (bs : List Nat)
  | timeout
  | socketError
deriving DecidableEq

/-- One iteration of the `while self.running` loop of
`TwitchChatReader.listen`, acting on the framing state.  Note that the
`reconnect()` paths (`if not data` and the generic exception handler) leave
`buffer` untouched: `buffer` is initialised once, before the loop. -/
def listenEvStep (st : List (List Char) × List Char) (ev : RecvEvent) :
    List (List Char) × List Char :=
  match ev with
  | .data bs =>
    let data := decodeUtf8Ignore bs
    if data.isEmpty then st
    else frameStep st data
  | .timeout => st
  | .socketError => st

/-- Run `listen` from a fresh start (`buffer = ""`) over a sequence of
receive events, returning `(lines delivered to handle_line, final buffer)`. -/
def listenRun (evs : List RecvEvent) : List (List Char) × List Char :=
  evs.foldl listenEvStep ([], [])

/-- The lines `handle_line` receives when the byte stream arrives split
into the given chunks (each chunk one successful `recv` result). -/
def listenFrames (chunks : List (List Nat)) : List (List Char) :=
  (listenRun (chunks.map RecvEvent.data)).1

/-- The lines `handle_line` receives when the already-decoded text arrives
split into the given chunks. -/
def framedLines (chunks : List (List Char)) : List (List Char) :=
  (chunks.foldl frameStep ([], [])).1

/-- The record stored in `self.last_message`: `{timestamp, username, message}`,
all Python strings. -/
structure ChatObservation where
  timestamp : List Char
  username : List Char
  message : List Char
deriving DecidableEq

/-- Embedding of Python `str.split(sep, maxsplit)` for a single-character
separator: split at the first `maxsplit` occurrences of `sep`, leftmost
first; the remainder is kept whole as the final element. -/
def splitMax (sep : Char) : Nat → List Char → List (List Char)
  | _, [] => [[]]
  | 0, s => [s]
  | maxsplit + 1, c :: rest =>
    if c = sep then
      [] :: splitMax sep maxsplit rest
    else
      match splitMax sep (maxsplit + 1) rest with
      | [] => [[c]]
      | h :: t => (c :: h) :: t

/-- Embedding of the Python substring test `pat in s`. -/
def hasSub (pat : List Char) : List Char → Bool
  | [] => pat.isEmpty
  | c :: rest => pat.isPrefixOf (c :: rest) || hasSub pat rest

/-- Python `str.isspace` characters recognised by `str.strip()` in the
ASCII range (space, tab, newline, carriage return, vertical tab, form feed). -/
def isPySpace (c : Char) : Bool :=
  c = ' ' || c = '\t' || c = '\n' || c = '\r' || c = '\x0B' || c = '\x0C'

/-- Embedding of Python `str.strip()`: drop leading and trailing whitespace. -/
def pyStrip (s : List Char) : List Char :=
  ((s.dropWhile isPySpace).reverse.dropWhile isPySpace).reverse

/-- What one `handle_line` call does: the protocol lines it sends on the
socket, and the observation it stores into `self.last_message` (if any). -/
structure HandleResult where
  sends : List (List Char)
  obs : Option ChatObservation
deriving DecidableEq

/-- Embedding of `TwitchChatReader.handle_line`.  `now` is the string
`datetime.now().strftime('%Y-%m-%d %H:%M:%S')` at the moment of the call.
A `PING`-prefixed line is answered with one `PONG` and returns at once; a
line containing `PRIVMSG` is split on `':'` with `maxsplit=2`, and only
when that yields at least three parts is `self.last_message` assigned
(username = text of `parts[1]` before the first `'!'`, message =
`parts[2].strip()`); every other line is ignored. -/
def handle_line (now : List Char) (line : List Char) : HandleResult :=
  if "PING".data.isPrefixOf line then
    { sends := ["PONG :tmi.twitch.tv\r\n".data], obs := none }
  else if hasSub "PRIVMSG".data line then
    let parts := splitMax ':' 2 line
    if 3 ≤ parts.length then
      { sends := [],
        obs := some
          { timestamp := now,
            username := (List.splitOn '!' (parts.getD 1 [])).headD [],
            message := pyStrip (parts.getD 2 []) } }
    else { sends := [], obs := none }
  else { sends := [], obs := none }

/-- The effect of one `handle_line` call on `self.last_message`: the slot is
overwritten only when the call produced an observation, otherwise untouched. -/
def updateSlot (slot : Option ChatObservation) (r : HandleResult) :
    Option ChatObservation :=
  match r.obs with
  | some m => some m
  | none => slot

/-- The text of the record `save_last_message` appends for an observation:
`f"{timestamp} - {username}: {message}\n"` (the trailing newline is the
record separator of the append-only file and is left implicit here, each
list element being one line of the file). -/
def formatLogLine (m : ChatObservation) : List Char :=
  m.timestamp ++ " - ".data ++ m.username ++ ": ".data ++ m.message

/-- The state `save_last_message` reads and writes: `self.last_save_time`
(seconds), `self.last_message`, and the lines of the dated log file. -/
structure SaveState where
  last_save_time : Nat
  last_message : Option ChatObservation
  log : List (List Char)
deriving DecidableEq

/-- What a pass of the save loop reports on the console. -/
inductive SaveOutput where
  | saved
  | errorSaving
deriving DecidableEq

/-- Embedding of one iteration of the `while self.running` loop of
`TwitchChatReader.save_last_message`, with `now = time.time()` for this
iteration and `ioFails` telling whether the `open`/`write` raises.  On
success the record is appended, `last_save_time` is set to `now` and the
slot is cleared; on an exception the error is printed and — because the
assignments sit inside the `try` block after the write — neither
`last_save_time` nor `last_message` is changed. -/
def save_last_message_step (st : SaveState) (now : Nat) (ioFails : Bool) :
    SaveState × Option SaveOutput :=
  if 30 ≤ now - st.last_save_time ∧ st.last_message.isSome then
    if ioFails then
      (st, some .errorSaving)
    else
      ({ last_save_time := now,
         last_message := none,
         log := st.log ++ [formatLogLine (st.last_message.getD ⟨[], [], []⟩)] },
       some .saved)
  else (st, none)

/-- Externally visible system actions of `reconnect` and its callers. -/
inductive SysAction where
  | sleepSeconds (n : Nat)
  | closeSocket
  | connectCall
deriving DecidableEq

/-- Embedding of `TwitchChatReader.reconnect`: `time.sleep(5)`, then close
the old socket if any, then call `connect()` again. -/
def reconnectActions : List SysAction :=
  [.sleepSeconds 5, .closeSocket, .connectCall]

/-- The listen loop's generic exception handler: `if self.running:
self.reconnect()` — reconnect only while the reader is still running. -/
def listen_error_actions (running : Bool) : List SysAction :=
  if running then reconnectActions else []

/-- The fields `TwitchChatReader.__init__` derives from the credentials:
`self.channel = channel.lower()`, `self.nickname = nickname.lower()`,
`self.token = token`. -/
structure ReaderCreds where
  channel : List Char
  nickname : List Char
  token : List Char
deriving DecidableEq

/-- Python `str.lower()` on the ASCII range (the only case folding relevant
to the handshake commands). -/
def lowerChar (c : Char) : Char :=
  if 'A' ≤ c ∧ c ≤ 'Z' then Char.ofNat (c.toNat + 32) else c

/-- Python `str.lower()` over a whole string. -/
def lowerStr (s : List Char) : List Char := s.map lowerChar

/-- Embedding of `TwitchChatReader.__init__` restricted to the credential
fields. -/
def initReader (channel nickname token : List Char) : ReaderCreds :=
  { channel := lowerStr channel, nickname := lowerStr nickname, token := token }

/-- The three handshake lines `connect()` sends after opening the socket:
`PASS <token>`, `NICK <nickname>`, `JOIN #<channel>`, each CR-LF-terminated. -/
def connectSends (r : ReaderCreds) : List (List Char) :=
  ["PASS ".data ++ r.token ++ "\r\n".data,
   "NICK ".data ++ r.nickname ++ "\r\n".data,
   "JOIN #".data ++ r.channel ++ "\r\n".data]

/-- Shared state as seen by the two threads (`listen` and
`save_last_message`): the observation slot, the save clock, the log file,
and the saver's position inside its loop body (`pc`): 0 = about to test
the guard, 1 = about to append to the file, 2 = about to set
`last_save_time`, 3 = about to clear `last_message`. -/
structure SharedState where
  last_message : Option ChatObservation
  last_save_time : Nat
  log : List (List Char)
  pc : Nat
deriving DecidableEq

/-- An atomic step of one of the two threads: the listener's single
assignment `self.last_message = {...}` (the tail of a successful `PRIVMSG`
parse in `handle_line`), or the saver executing the statement at its
current `pc` (with that iteration's `time.time()` value and I/O outcome). -/
inductive ThreadStep where
  | listenWrite (o : ChatObservation)
  | saveStep (now : Nat) (ioFails : Bool)
deriving DecidableEq

/-- Small-step interleaving semantics of the two threads over the shared
state.  The Python code takes no lock, so the saver's guard test, file
append, clock update and slot clear are four separately scheduled steps
between which the listener may run. -/
def interleavedStep (st : SharedState) (s : ThreadStep) : SharedState :=
  match s with
  | .listenWrite o => { st with last_message := some o }
  | .saveStep now ioFails =>
    match st.pc with
    | 0 =>
      if 30 ≤ now - st.last_save_time ∧ st.last_message.isSome then
        { st with pc := 1 }
      else st
    | 1 =>
      if ioFails then { st with pc := 0 }
      else
        { st with
            log := st.log ++ [formatLogLine (st.last_message.getD ⟨[], [], []⟩)],
            pc := 2 }
    | 2 => { st with last_save_time := now, pc := 3 }
    | 3 => { st with last_message := none, pc := 0 }
    | _ => st

/-- Run an explicit interleaving of the two threads. -/
def runThreads (st : SharedState) (steps : List ThreadStep) : SharedState :=
  steps.foldl interleavedStep st

/-- A sample observation, as `handle_line` would build it. -/
def obsA : ChatObservation :=
  ⟨"2025-06-01 10:00:00".data, "alice".data, "hello".data⟩

/-- A second, distinct sample observation. -/
def obsB : ChatObservation :=
  ⟨"2025-06-01 10:00:05".data, "bob".data, "world".data⟩

/-- An interleaving of the two threads in which the listener stores a new
observation between the saver's file append and its slot clear: the saver
passes its guard, appends the observation it read, then the listener
overwrites the slot, then the saver finishes by setting the clock and
clearing the slot. -/
def raceSteps : List ThreadStep :=
  [.saveStep 30 false, .saveStep 30 false, .listenWrite obsB,
   .saveStep 30 false, .saveStep 30 false]

/-- Python `str.split` never returns an empty list of parts. -/
theorem splitCRLF_ne_nil : ∀ s : List Char, splitCRLF s ≠ []
  | [] => by simp [splitCRLF]
  | [c] => by simp [splitCRLF]
  | c :: c2 :: rest => by
    simp only [splitCRLF]
    split
    · simp
    · split <;> simp

/-- If splitting finds no terminator, the single part is the whole input. -/
theorem splitCRLF_singleton : ∀ (s u : List Char), splitCRLF s = [u] → u = s
  | [], u, h => by
    simp [splitCRLF] at h
    simp [h]
  | [c], u, h => by
    simp [splitCRLF] at h
    simp [h]
  | c :: c2 :: rest, u, h => by
    simp only [splitCRLF] at h
    split at h
    · cases hh : splitCRLF rest with
      | nil => exact absurd hh (splitCRLF_ne_nil rest)
      | cons a t => rw [hh] at h; simp at h
    · cases hh : splitCRLF (c2 :: rest) with
      | nil => exact absurd hh (splitCRLF_ne_nil _)
      | cons a t =>
        rw [hh] at h
        simp only [List.cons.injEq] at h
        obtain ⟨h1, h2⟩ := h
        subst h2
        have := splitCRLF_singleton (c2 :: rest) a hh
        subst this
        exact h1.symm

/-- The `getLastD` of a non-empty list does not depend on the default. -/
theorem getLastD_irrel {α : Type} {B : List α} (h : B ≠ []) (d e : α) :
    B.getLastD d = B.getLastD e := by
  cases B with
  | nil => exact absurd rfl h
  | cons b B' => rw [List.getLastD_cons, List.getLastD_cons]

/-- The `getLastD` of an append with a non-empty right part. -/
theorem getLastD_append_ne {α : Type} (A : List α) {B : List α} (h : B ≠ [])
    (d : α) : (A ++ B).getLastD d = B.getLastD d := by
  induction A generalizing d with
  | nil => rfl
  | cons a A ih =>
    rw [List.cons_append, List.getLastD_cons, ih a]
    exact getLastD_irrel h a d

/-- The trailing part kept as the new buffer contains no terminator: splitting
it again returns it whole. -/
theorem splitCRLF_getLastD : ∀ s : List Char,
    splitCRLF ((splitCRLF s).getLastD []) = [(splitCRLF s).getLastD []]
  | [] => rfl
  | [c] => rfl
  | c :: c2 :: rest => by
    simp only [splitCRLF]
    by_cases hc : c = '\r' ∧ c2 = '\n'
    · rw [if_pos hc, List.getLastD_cons]
      exact splitCRLF_getLastD rest
    · rw [if_neg hc]
      cases hh : splitCRLF (c2 :: rest) with
      | nil => exact absurd hh (splitCRLF_ne_nil _)
      | cons a t =>
        show splitCRLF (((c :: a) :: t).getLastD []) = [((c :: a) :: t).getLastD []]
        cases t with
        | nil =>
          rw [List.getLastD_cons]
          show splitCRLF (c :: a) = [c :: a]
          have ha := splitCRLF_singleton (c2 :: rest) a hh
          subst ha
          simp only [splitCRLF]
          rw [if_neg hc, hh]
        | cons t1 t2 =>
          rw [List.getLastD_cons, List.getLastD_cons]
          have ih := splitCRLF_getLastD (c2 :: rest)
          rw [hh, List.getLastD_cons, List.getLastD_cons] at ih
          exact ih

/-- Splitting a concatenation: the complete parts of `x` are unaffected by
what follows, and the unterminated tail of `x` is re-split together with
`y`.  This is the algebraic heart of chunk-boundary invariance: a
terminator split across two chunks is found once the second chunk arrives. -/
theorem splitCRLF_append : ∀ x y : List Char,
    splitCRLF (x ++ y) =
      (splitCRLF x).dropLast ++ splitCRLF ((splitCRLF x).getLastD [] ++ y)
  | [], y => rfl
  | [c], y => rfl
  | c :: c2 :: rest, y => by
    simp only [List.cons_append]
    by_cases hc : c = '\r' ∧ c2 = '\n'
    · simp only [splitCRLF]
      rw [if_pos hc, if_pos hc,
        List.dropLast_cons_of_ne_nil (splitCRLF_ne_nil rest), List.getLastD_cons,
        List.cons_append, splitCRLF_append rest y]
    · simp only [splitCRLF]
      rw [if_neg hc, if_neg hc]
      cases hh : splitCRLF (c2 :: rest) with
      | nil => exact absurd hh (splitCRLF_ne_nil _)
      | cons a t =>
        show (match splitCRLF (c2 :: (rest ++ y)) with
              | [] => [[c]]
              | h :: t => (c :: h) :: t)
            = ((c :: a) :: t).dropLast ++ splitCRLF (((c :: a) :: t).getLastD [] ++ y)
        cases t with
        | nil =>
          have ha := splitCRLF_singleton _ a hh
          subst ha
          show (match splitCRLF (c2 :: (rest ++ y)) with
                | [] => [[c]]
                | h :: t => (c :: h) :: t)
              = splitCRLF (c :: c2 :: (rest ++ y))
          have hu : splitCRLF (c :: c2 :: (rest ++ y))
              = (match splitCRLF (c2 :: (rest ++ y)) with
                 | [] => [[c]]
                 | h :: t => (c :: h) :: t) := by
            simp only [splitCRLF]
            rw [if_neg hc]
          exact hu.symm
        | cons t1 t2 =>
          have ih := splitCRLF_append (c2 :: rest) y
          rw [List.cons_append, hh] at ih
          have ih' : splitCRLF (c2 :: (rest ++ y))
              = a :: ((t1 :: t2).dropLast ++ splitCRLF ((t1 :: t2).getLastD a ++ y)) := ih
          rw [ih']
          rfl

/-- Running the listen loop's framing over any chunk list is the same as
splitting the concatenated text in one pass, provided the starting buffer
contains no terminator (as the empty initial buffer does). -/
theorem frameStep_foldl (chunks : List (List Char)) :
    ∀ (acc : List (List Char)) (buf : List Char), splitCRLF buf = [buf] →
    List.foldl frameStep (acc, buf) chunks =
      (acc ++ ((splitCRLF (buf ++ chunks.flatten)).dropLast.filter fun l => !l.isEmpty),
       (splitCRLF (buf ++ chunks.flatten)).getLastD []) := by
  induction chunks with
  | nil =>
    intro acc buf hbuf
    simp [hbuf, List.getLastD_cons]
  | cons ch chs ih =>
    intro acc buf hbuf
    rw [List.foldl_cons]
    have hstep : frameStep (acc, buf) ch =
        (acc ++ ((splitCRLF (buf ++ ch)).dropLast.filter fun l => !l.isEmpty),
         (splitCRLF (buf ++ ch)).getLastD []) := rfl
    rw [hstep, ih _ _ (splitCRLF_getLastD (buf ++ ch))]
    have hne := splitCRLF_ne_nil ((splitCRLF (buf ++ ch)).getLastD [] ++ chs.flatten)
    rw [List.flatten_cons, ← List.append_assoc, splitCRLF_append (buf ++ ch) chs.flatten,
      List.dropLast_append_of_ne_nil _ hne, List.filter_append,
      getLastD_append_ne _ hne, List.append_assoc]

/-- C1 (counterexample): the claim quantifies over byte-level chunkings, but
`listen` decodes each `recv` chunk independently with `errors='ignore'`, so a
chunk boundary inside a multi-byte UTF-8 sequence changes the delivered
lines.  The bytes `41 C3 A9 0D 0A` (the text `Aé` plus the terminator) in one
chunk deliver the line `Aé`; split between `C3` and `A9`, both halves of the
`é` sequence are dropped and the delivered line is `A`. -/
theorem c1_counterexample_chunking_changes_lines :
    ([[0x41, 0xC3, 0xA9, 0x0D, 0x0A]] : List (List Nat)).flatten =
      ([[0x41, 0xC3], [0xA9, 0x0D, 0x0A]] : List (List Nat)).flatten ∧
    listenFrames [[0x41, 0xC3, 0xA9, 0x0D, 0x0A]] ≠
      listenFrames [[0x41, 0xC3], [0xA9, 0x0D, 0x0A]] := by
  decide

/-- C1 (amended): at the level of decoded text — equivalently, whenever no
chunk boundary falls inside a multi-byte UTF-8 sequence — framing is
invariant under chunk-boundary placement: any two chunkings of the same
character stream deliver the same sequence of complete lines to
`handle_line`. -/
theorem c1_framing_invariant_for_decoded_chunks (cs1 cs2 : List (List Char))
    (h : cs1.flatten = cs2.flatten) : framedLines cs1 = framedLines cs2 := by
  unfold framedLines
  rw [frameStep_foldl cs1 [] [] rfl, frameStep_foldl cs2 [] [] rfl, h]

/-- C1 (witness): two different chunkings of the text `ab` CR LF `cd`
(the second splitting the terminator itself) deliver the same lines. -/
theorem c1_framing_invariant_for_decoded_chunks_witness :
    (["ab\r\ncd".data] : List (List Char)).flatten =
      (["ab\r".data, "\ncd".data] : List (List Char)).flatten ∧
    framedLines ["ab\r\ncd".data] = framedLines ["ab\r".data, "\ncd".data] :=
  ⟨by decide, c1_framing_invariant_for_decoded_chunks _ _ (by decide)⟩

/-- C2 (counterexample): the buffer of `listen` is initialised once, before
the loop, and `reconnect()` does not touch it.  After `abc` arrives without
a terminator, the connection drops (empty `recv`, so `reconnect()` runs),
and the new connection delivers `def` CR LF, the delivered line is
`abcdef` — the old connection's bytes are prefixed to the new ones. -/
theorem c2_counterexample_buffer_survives_reconnect :
    listenRun [RecvEvent.data [0x61, 0x62, 0x63], RecvEvent.data [],
        RecvEvent.data [0x64, 0x65, 0x66, 0x0D, 0x0A]] =
      (["abcdef".data], []) ∧
    "abc".data.isPrefixOf "abcdef".data = true := by
  decide

/-- C2 (amended): on reconnect the FrameBuffer is NOT cleared.  Both
reconnect-triggering paths of the listen loop — an empty decode result
(`if not data`) and a raised exception — leave the framing state, in
particular the buffer of unterminated bytes, unchanged, so those bytes are
prefixed to the data received on the new connection. -/
theorem c2_reconnect_keeps_buffer (st : List (List Char) × List Char)
    (bs : List Nat) (h : decodeUtf8Ignore bs = []) :
    listenEvStep st RecvEvent.socketError = st ∧
    listenEvStep st (RecvEvent.data bs) = st := by
  refine ⟨rfl, ?_⟩
  show (if (decodeUtf8Ignore bs).isEmpty then st
        else frameStep st (decodeUtf8Ignore bs)) = st
  rw [h]
  rfl

/-- C2 (witness): with three unterminated characters buffered and a closed
connection (empty `recv`), both reconnect paths keep the buffer. -/
theorem c2_reconnect_keeps_buffer_witness :
    decodeUtf8Ignore [] = [] ∧
    listenEvStep ([], "abc".data) RecvEvent.socketError = ([], "abc".data) ∧
    listenEvStep ([], "abc".data) (RecvEvent.data []) = ([], "abc".data) :=
  ⟨by decide, c2_reconnect_keeps_buffer ([], "abc".data) [] (by decide)⟩

/-- C5 (counterexample): the reconnection delay in `reconnect` is
`time.sleep(5)`, not 30 seconds. -/
theorem c5_counterexample_delay_is_not_30s :
    listen_error_actions true ≠
      [SysAction.sleepSeconds 30, SysAction.closeSocket, SysAction.connectCall] := by
  decide

/-- C5 (amended): when the listening activity fails while the reader is
still running, it waits a fixed 5-second delay, then closes the residual
socket, then re-invokes `connect()`; when no longer running it does
nothing. -/
theorem c5_reconnect_waits_5s_then_closes_then_connects :
    reconnectActions =
      [SysAction.sleepSeconds 5, SysAction.closeSocket, SysAction.connectCall] ∧
    listen_error_actions true = reconnectActions ∧
    listen_error_actions false = [] := by
  decide

/-- C6 (counterexample): decoding uses `errors='ignore'`, which silently
DROPS malformed bytes instead of substituting a replacement character: the
byte `FF` between `A` and `B` vanishes and no U+FFFD appears. -/
theorem c6_counterexample_malformed_byte_dropped_not_replaced :
    decodeUtf8Ignore [0x41, 0xFF, 0x42] = "AB".data ∧
    '�' ∉ decodeUtf8Ignore [0x41, 0xFF, 0x42] := by
  decide

/-- C6 (amended): malformed byte sequences are tolerated without failing
the stream, but by silently dropping them (`errors='ignore'`), not by
substituting a replacement: any byte that cannot start a UTF-8 sequence is
skipped with nothing emitted in its place. -/
theorem c6_invalid_lead_byte_silently_dropped (b : Nat) (rest : List Nat)
    (h : (0x80 ≤ b ∧ b ≤ 0xC1) ∨ (0xF5 ≤ b ∧ b ≤ 0xFF)) :
    decodeUtf8Ignore (b :: rest) = decodeUtf8Ignore rest := by
  have h1 : ¬ b < 0x80 := by omega
  have h2 : ¬ (0xC2 ≤ b ∧ b ≤ 0xDF) := by omega
  have h3 : ¬ (0xE0 ≤ b ∧ b ≤ 0xEF) := by omega
  have h4 : ¬ (0xF0 ≤ b ∧ b ≤ 0xF4) := by omega
  rw [decodeUtf8Ignore.eq_def]
  split
  · rename_i heq
    exact absurd heq (List.cons_ne_nil _ _)
  · rename_i b' rest' heq
    obtain ⟨rfl, rfl⟩ := List.cons.inj heq
    rw [if_neg h1, if_neg h2, if_neg h3, if_neg h4]

/-- C6 (witness): the invalid lead byte `FF` before `A` is dropped. -/
theorem c6_invalid_lead_byte_silently_dropped_witness :
    ((0x80 ≤ 0xFF ∧ 0xFF ≤ 0xC1) ∨ (0xF5 ≤ 0xFF ∧ 0xFF ≤ 0xFF)) ∧
    decodeUtf8Ignore (0xFF :: [0x41]) = decodeUtf8Ignore [0x41] :=
  ⟨by decide, c6_invalid_lead_byte_silently_dropped 0xFF [0x41] (by decide)⟩

/-- C3 (counterexample): `last_save_time` and `last_message` are only
updated inside the `try` block after the write succeeds, so after a failed
write at `t = 31` the observation is still pending and the very next tick
at `t = 32` writes it — the same observation IS written on a later
scheduler tick, contradicting "lost and not retried". -/
theorem c3_counterexample_failed_write_is_retried :
    save_last_message_step ⟨0, some obsA, []⟩ 31 true =
      (⟨0, some obsA, []⟩, some SaveOutput.errorSaving) ∧
    (save_last_message_step
        (save_last_message_step ⟨0, some obsA, []⟩ 31 true).1 32 false).1.log =
      [formatLogLine obsA] := by
  decide

/-- C3 (amended): a persistence I/O failure is reported (logged) but the
pending observation is NOT lost and the write IS retried: the failing
iteration leaves the whole save state — slot, clock and log — unchanged,
so the same observation remains eligible on every subsequent tick until a
write succeeds. -/
theorem c3_failed_write_reported_and_state_unchanged
    (st : SaveState) (now : Nat) :
    (save_last_message_step st now true).1 = st ∧
    (30 ≤ now - st.last_save_time ∧ st.last_message.isSome →
      (save_last_message_step st now true).2 = some SaveOutput.errorSaving) := by
  unfold save_last_message_step
  by_cases h : 30 ≤ now - st.last_save_time ∧ st.last_message.isSome
  · simp [h]
  · simp [h]

/-- C3 (witness): a failed write at `t = 31` with an observation pending
since `t = 0` leaves the state unchanged and reports the error. -/
theorem c3_failed_write_reported_and_state_unchanged_witness :
    (save_last_message_step ⟨0, some obsA, []⟩ 31 true).1 = ⟨0, some obsA, []⟩ ∧
    (save_last_message_step ⟨0, some obsA, []⟩ 31 true).2 =
      some SaveOutput.errorSaving :=
  ⟨(c3_failed_write_reported_and_state_unchanged ⟨0, some obsA, []⟩ 31).1,
   (c3_failed_write_reported_and_state_unchanged ⟨0, some obsA, []⟩ 31).2 (by decide)⟩

/-- C4 (confirmed): the reference line is split on `':'` into three
segments, the username is the part of the identity before `'!'`, the
message is the third segment stripped; the scheduled persistence then
appends a log line ending in `user1: hello world`. -/
theorem c4_end_to_end_privmsg_parse_and_persist :
    handle_line "2025-06-01 10:00:00".data
        ":user1!user1@user1.tmi.twitch.tv PRIVMSG #channel :hello world".data =
      { sends := [],
        obs := some ⟨"2025-06-01 10:00:00".data, "user1".data, "hello world".data⟩ } ∧
    (save_last_message_step
        ⟨0, some ⟨"2025-06-01 10:00:00".data, "user1".data, "hello world".data⟩, []⟩
        30 false).1.log =
      ["2025-06-01 10:00:00 - user1: hello world".data] ∧
    "user1: hello world".data.isSuffixOf
      "2025-06-01 10:00:00 - user1: hello world".data = true := by
  decide

/-- C7 (confirmed): every line beginning with `PING` is answered with
exactly one `PONG :tmi.twitch.tv` CR LF on the socket, produces no
observation, and never reaches the `PRIVMSG` parsing branch (the result is
exactly the keepalive branch's result). -/
theorem c7_ping_answered_with_one_pong (now line : List Char)
    (h : "PING".data.isPrefixOf line = true) :
    handle_line now line =
      { sends := ["PONG :tmi.twitch.tv\r\n".data], obs := none } := by
  simp [handle_line, h]

/-- C7 (witness): the reference keepalive line. -/
theorem c7_ping_answered_with_one_pong_witness :
    "PING".data.isPrefixOf "PING :tmi.twitch.tv".data = true ∧
    handle_line "2025-06-01 10:00:00".data "PING :tmi.twitch.tv".data =
      { sends := ["PONG :tmi.twitch.tv\r\n".data], obs := none } :=
  ⟨by decide,
   c7_ping_answered_with_one_pong "2025-06-01 10:00:00".data
     "PING :tmi.twitch.tv".data (by decide)⟩

/-- C8 (confirmed): a line containing `PRIVMSG` whose `split(':', 2)` has
fewer than three parts yields no observation, and `self.last_message` is
left unchanged whatever it held. -/
theorem c8_short_privmsg_line_ignored (now line : List Char)
    (slot : Option ChatObservation)
    (hp : hasSub "PRIVMSG".data line = true)
    (hlen : (splitMax ':' 2 line).length < 3) :
    (handle_line now line).obs = none ∧
    updateSlot slot (handle_line now line) = slot := by
  have hobs : (handle_line now line).obs = none := by
    by_cases hping : "PING".data.isPrefixOf line
    · simp [handle_line, hping]
    · simp [handle_line, hping, hp, Nat.not_le.mpr hlen]
  exact ⟨hobs, by simp [updateSlot, hobs]⟩

/-- C8 (witness): `PRIVMSG hello` has no colon at all, so it splits into a
single part and is discarded without touching the slot. -/
theorem c8_short_privmsg_line_ignored_witness :
    hasSub "PRIVMSG".data "PRIVMSG hello".data = true ∧
    (splitMax ':' 2 "PRIVMSG hello".data).length < 3 ∧
    (handle_line "t".data "PRIVMSG hello".data).obs = none ∧
    updateSlot (some obsA) (handle_line "t".data "PRIVMSG hello".data) = some obsA :=
  ⟨by decide, by decide,
   c8_short_privmsg_line_ignored "t".data "PRIVMSG hello".data (some obsA)
     (by decide) (by decide)⟩

/-- C9 (counterexample): the two threads share `self.last_message` with no
lock.  In the interleaving `raceSteps` the saver passes its guard and
appends `obsA`, the listener then stores `obsB`, and the saver's final
statement clears the slot — `obsB` was written into the slot during the
run but is never persisted and is no longer pending: an observation is
lost to the write/read race. -/
theorem c9_counterexample_observation_lost_in_race :
    runThreads ⟨some obsA, 0, [], 0⟩ raceSteps =
      ⟨none, 30, [formatLogLine obsA], 0⟩ ∧
    ThreadStep.listenWrite obsB ∈ raceSteps ∧
    formatLogLine obsB ∉ (runThreads ⟨some obsA, 0, [], 0⟩ raceSteps).log := by
  decide

/-- C9 (amended): the slot write and the read-and-clear are NOT mutually
exclusive — the code takes no lock — and there exists an interleaving of
the two threads in which an observation written to the slot is cleared
without ever being persisted. -/
theorem c9_mutual_exclusion_fails :
    ∃ (steps : List ThreadStep) (o : ChatObservation),
      ThreadStep.listenWrite o ∈ steps ∧
      (runThreads ⟨some obsA, 0, [], 0⟩ steps).last_message = none ∧
      formatLogLine o ∉ (runThreads ⟨some obsA, 0, [], 0⟩ steps).log :=
  ⟨raceSteps, obsB, by decide, by decide, by decide⟩

/-- C10 (confirmed): the constructor lowercases channel and nickname, so
the `NICK` and `JOIN` handshake lines are the same for any casing of the
credentials, the `NICK` line carries the lowercased nickname, the `JOIN`
line the lowercased channel, and the `PASS` line carries the token
verbatim. -/
theorem c10_handshake_lowercases_channel_and_nickname
    (chan1 chan2 nick1 nick2 tok : List Char)
    (hc : lowerStr chan1 = lowerStr chan2)
    (hn : lowerStr nick1 = lowerStr nick2) :
    connectSends (initReader chan1 nick1 tok) =
      connectSends (initReader chan2 nick2 tok) ∧
    connectSends (initReader chan1 nick1 tok) =
      ["PASS ".data ++ tok ++ "\r\n".data,
       "NICK ".data ++ lowerStr nick1 ++ "\r\n".data,
       "JOIN #".data ++ lowerStr chan1 ++ "\r\n".data] := by
  constructor
  · simp [connectSends, initReader, hc, hn]
  · rfl

/-- C10 (witness): differently-cased credentials produce identical
handshake lines, with the token sent verbatim. -/
theorem c10_handshake_lowercases_channel_and_nickname_witness :
    lowerStr "ChanNel".data = lowerStr "chaNNEL".data ∧
    connectSends (initReader "ChanNel".data "NickName".data "oauth:AbC123".data) =
      connectSends (initReader "chaNNEL".data "nickname".data "oauth:AbC123".data) ∧
    connectSends (initReader "ChanNel".data "NickName".data "oauth:AbC123".data) =
      ["PASS ".data ++ "oauth:AbC123".data ++ "\r\n".data,
       "NICK ".data ++ lowerStr "NickName".data ++ "\r\n".data,
       "JOIN #".data ++ lowerStr "ChanNel".data ++ "\r\n".data] :=
  ⟨by decide,
   (c10_handshake_lowercases_channel_and_nickname "ChanNel".data "chaNNEL".data
      "NickName".data "nickname".data "oauth:AbC123".data (by decide) (by decide)).1,
   (c10_handshake_lowercases_channel_and_nickname "ChanNel".data "chaNNEL".data
      "NickName".data "nickname".data "oauth:AbC123".data (by decide) (by decide)).2⟩
